import Mathlib

/-!
Shallow embedding of the Express GPS-info API (server.js and the combined
variant file) together with proofs about its item filtering, pagination,
parameter validation, mutation and geo-proximity logic.

Modelling conventions:
* JavaScript numbers are modelled as rationals (`ℚ`); the haversine
  distance function is transcendental, so the geo endpoints are
  parametrised over an arbitrary distance function `DistFn` and every
  theorem quantifies over it (the haversine function is one instance).
* A JS string field that can be absent or empty (both falsy) is modelled
  as `String` with `""` standing for the falsy case; coordinates that can
  be absent (falsy) are modelled with `0` standing for the falsy case,
  matching `record.Latitude && record.Longitude` which rejects `0` too.
* `Array.prototype.sort` with the numeric comparator used in the source is
  (per the ECMAScript spec) a stable ascending sort; it is modelled by a
  stable insertion sort `isort`.
* `x.toFixed(2)` followed by `parseFloat` is modelled by `round2`, rounding
  half up to two decimal places.
-/

namespace GpsApi

/-! ## Definitions -/

/-! ## Stable sorting (model of `Array.prototype.sort` with a numeric comparator) -/
/-- Stable insertion of `x` into a list: `x` is placed before the first
element `y` with `le x y`, so earlier-pushed elements win ties. -/
def insertSorted {α : Type} (le : α → α → Bool) (x : α) : List α → List α
  | [] => [x]
  | y :: ys => if le x y then x :: y :: ys else y :: insertSorted le x ys

/-- Stable insertion sort, the model of the stable ascending `sort` calls. -/
def isort {α : Type} (le : α → α → Bool) : List α → List α
  | [] => []
  | x :: xs => insertSorted le x (isort le xs)

/-! ## String helpers (split / join / substring / normalisation) -/
/-- Model of `String.prototype.split("\n")`. -/
def splitLines (s : String) : List String :=
  (s.toList.splitOn '\n').map (fun cs => String.mk cs)

/-- Model of `Array.prototype.join("\n")`. -/
def joinLines (parts : List String) : String :=
  String.mk (List.intercalate ['\n'] (parts.map String.toList))

/-- Model of `String.prototype.split(",")`. -/
def splitCommas (s : String) : List String :=
  (s.toList.splitOn ',').map (fun cs => String.mk cs)

/-- Boolean test that `small` is a prefix of `big`. -/
def listStartsWith : List Char → List Char → Bool
  | [], _ => true
  | _ :: _, [] => false
  | a :: as, b :: bs => a == b && listStartsWith as bs

/-- Boolean test that `needle` occurs contiguously inside `hay`. -/
def listSub (needle : List Char) : List Char → Bool
  | [] => listStartsWith needle []
  | b :: bs => listStartsWith needle (b :: bs) || listSub needle bs

/-- Model of `String.prototype.includes`. -/
def strHasSub (hay needle : String) : Bool :=
  listSub needle.toList hay.toList

/-- Model of `normalizeText`: keep only ASCII letters, digits and spaces,
then lowercase. -/
def normalizeText (text : String) : String :=
  String.mk ((text.toList.filter (fun c => c.isAlphanum || c == ' ')).map Char.toLower)

/-! ## Language-aware text extraction (`/api/v1/items` language filter) -/
/-- Model of the object literal `langMapping` indexed by a language code. -/
def langSlot (lang : String) : Option Nat :=
  if lang = "en" then some 0
  else if lang = "ta" then some 1
  else if lang = "hi" then some 2
  else if lang = "te" then some 3
  else if lang = "kn" then some 4
  else if lang = "ml" then some 5
  else none

/-- Sentinel returned when no requested language slot holds text. -/
def noMatchSentinel : String := "(No matching text found)"

/-- Model of the language-extraction transform applied to each surviving
item inside the `languages` filter branch: split the packed text on
newlines, read the slot for each requested code (empty string when the
slot is absent), drop empties and rejoin, falling back to the sentinel. -/
def extractMultilineText (multiline : String) (langArray : List String) : String :=
  let allTexts := splitLines multiline
  let filteredTexts :=
    (langArray.map (fun lang =>
      match langSlot lang with
      | some i => allTexts.getD i ""
      | none => "")).filter (fun t => t ≠ "")
  if filteredTexts.length > 0 then joinLines filteredTexts else noMatchSentinel

/-- Fixed slot table as written in the specification, used to state the
extraction claim independently of `langSlot`. -/
def specLangTable : List (String × Nat) :=
  [("en", 0), ("ta", 1), ("hi", 2), ("te", 3), ("kn", 4), ("ml", 5)]

/-! ## Pagination (`/api/v1/items`) -/
/-- Model of `filteredData.slice(startIndex, startIndex + limit)` with
`startIndex = (page - 1) * limit`. -/
def paginate {α : Type} (filteredData : List α) (page limit : Nat) : List α :=
  (filteredData.drop ((page - 1) * limit)).take limit

/-- Model of `Math.ceil(total_count / limit)` for a positive `limit`. -/
def totalPagesOf (total_count limit : Nat) : Nat :=
  (total_count + limit - 1) / limit

/-! ## Coercion of the `items_per_page` query parameter -/
/-- Outcome of reading the `items_per_page` query parameter.  A missing
parameter defaults (by destructuring) to the number `10`, which
`parseInt` maps to `10`; `nonNumeric` covers strings on which `parseInt`
yields `NaN`; `intVal n` covers strings with integer prefix `n`. -/
inductive ItemsPerPageInput : Type
  | missing
  | nonNumeric (s : String)
  | intVal (n : Int)
  deriving DecidableEq, Repr

/-- Model of `parseInt(items_per_page)` (with the destructuring default),
returning `none` for `NaN`. -/
def parseIntItemsPerPage : ItemsPerPageInput → Option Int
  | .missing => some 10
  | .nonNumeric _ => none
  | .intVal n => some n

/-- Model of `const limit = parseInt(items_per_page) || 10`, where both
`NaN` and `0` are falsy. -/
def effectiveLimit (ipp : ItemsPerPageInput) : Int :=
  match parseIntItemsPerPage ipp with
  | none => 10
  | some n => if n = 0 then 10 else n

/-! ## Rounding to two decimals -/
/-- Model of `parseFloat(x.toFixed(2))`: round half up to two decimal
places.  Written with integer division and `Rat.divInt` so that it
evaluates by kernel reduction; `round2_eq` relates it to the usual
mathematical description. -/
def round2 (q : ℚ) : ℚ :=
  Rat.divInt ((200 * q.num + q.den) / (2 * (q.den : Int))) 100

/-! ## Geo data model -/
/-- Distances are produced by the haversine helper; the embedding is
parametrised over the distance function, of type
latitude₁ → longitude₁ → latitude₂ → longitude₂ → kilometres. -/
abbrev DistFn : Type := ℚ → ℚ → ℚ → ℚ → ℚ

/-- Record of `neighborhoods_data_ss.json` (fields used by the handlers;
`pincode = ""` models a falsy/absent postal code). -/
structure Neighborhood : Type where
  placeName : String
  placeType : String
  country : String
  state : String
  region : String
  district : String
  pincode : String
  latitude : ℚ
  longitude : ℚ
  deriving DecidableEq, Repr

/-- Record parsed from `pincode_with_lat_long.csv` (`Pincode = ""` and a
coordinate `0` model the falsy cases). -/
structure PincodeRecord : Type where
  Pincode : String
  OfficeName : String
  DivisionName : String
  RegionName : String
  StateName : String
  District : String
  Latitude : ℚ
  Longitude : ℚ
  deriving DecidableEq, Repr

/-- Model of the guard `record.Latitude && record.Longitude`. -/
def hasCoords (r : PincodeRecord) : Bool :=
  decide (r.Latitude ≠ 0 ∧ r.Longitude ≠ 0)

/-! ## `/api/v1/neighborhoods/nearby` -/
/-- Entry of the `places` array returned by `/api/v1/neighborhoods/nearby`
(display-only fields that no claim touches are omitted). -/
structure NearbyNeighborhood : Type where
  placeName : String
  placeType : String
  country : String
  state : String
  region : String
  district : String
  pincode : String
  distance_km : ℚ
  deriving DecidableEq, Repr

/-- Model of the `/api/v1/neighborhoods/nearby` result list: map each
neighborhood to an entry carrying the rounded distance, keep entries with
`distance_km <= maxDistance`, sort ascending by `distance_km`. -/
def neighborhoodsNearby (hd : DistFn) (neighborhoodsData : List Neighborhood)
    (latitude longitude maxDistance : ℚ) : List NearbyNeighborhood :=
  isort (fun a b => decide (a.distance_km ≤ b.distance_km))
    ((neighborhoodsData.map (fun place =>
      { placeName := place.placeName
        placeType := place.placeType
        country := place.country
        state := place.state
        region := place.region
        district := place.district
        pincode := place.pincode
        distance_km := round2 (hd latitude longitude place.latitude place.longitude) })).filter
      (fun p => decide (p.distance_km ≤ maxDistance)))

/-! ## `/api/v1/pincode/nearby` -/
/-- Entry of the `pincodes` array returned by `/api/v1/pincode/nearby`:
the spread record plus the rounded distance. -/
structure NearbyPincode : Type where
  record : PincodeRecord
  distance_km : ℚ
  deriving DecidableEq, Repr

/-- Model of the `/api/v1/pincode/nearby` result list: records with
coordinates, rounded distance attached, filtered by
`distance_km <= maxDistance`, sorted ascending by `distance_km`. -/
def pincodeNearby (hd : DistFn) (pincodeData : List PincodeRecord)
    (latitude longitude maxDistance : ℚ) : List NearbyPincode :=
  isort (fun a b => decide (a.distance_km ≤ b.distance_km))
    (((pincodeData.filter hasCoords).map (fun record =>
      { record := record
        distance_km := round2 (hd latitude longitude record.Latitude record.Longitude)
        : NearbyPincode })).filter
      (fun r => decide (r.distance_km ≤ maxDistance)))

/-! ## `/api/v1/places/nearby` -/
/-- Nested `pincodeInfo` object of a `pincode`-typed entry of
`/api/v1/places/nearby`. -/
structure PincodeDetails : Type where
  officeName : String
  divisionName : String
  regionName : String
  stateName : String
  district : String
  pincode : String
  deriving DecidableEq, Repr

/-- Entry of the combined `places` array of `/api/v1/places/nearby`. -/
structure PlaceEntry : Type where
  type : String
  placeName : String
  placeType : String
  country : String
  state : String
  region : String
  district : String
  pincode : String
  latitude : ℚ
  longitude : ℚ
  distance_km : ℚ
  pincodeInfo : Option PincodeDetails
  deriving DecidableEq, Repr

/-- Model of `/api/v1/places/nearby`: neighborhoods within the radius
(`pincodeInfo: null`), then pincode records within the radius, the whole
list sorted ascending by rounded distance.  Note that the inclusion test
uses the raw distance while the reported `distance_km` is rounded. -/
def placesNearby (hd : DistFn) (neighborhoodsData : List Neighborhood)
    (pincodeData : List PincodeRecord) (latitude longitude maxDistance : ℚ) :
    List PlaceEntry :=
  let fromNeighborhoods :=
    (neighborhoodsData.filter (fun place =>
      decide (hd latitude longitude place.latitude place.longitude ≤ maxDistance))).map
      (fun place =>
        { type := "neighborhood"
          placeName := place.placeName
          placeType := place.placeType
          country := place.country
          state := place.state
          region := place.region
          district := place.district
          pincode := place.pincode
          latitude := place.latitude
          longitude := place.longitude
          distance_km := round2 (hd latitude longitude place.latitude place.longitude)
          pincodeInfo := none })
  let fromPincodes :=
    ((pincodeData.filter hasCoords).filter (fun record =>
      decide (hd latitude longitude record.Latitude record.Longitude ≤ maxDistance))).map
      (fun record =>
        { type := "pincode"
          placeName := record.OfficeName
          placeType := "Post Office"
          country := "India"
          state := record.StateName
          region := record.RegionName
          district := record.District
          pincode := record.Pincode
          latitude := record.Latitude
          longitude := record.Longitude
          distance_km := round2 (hd latitude longitude record.Latitude record.Longitude)
          pincodeInfo := some
            { officeName := record.OfficeName
              divisionName := record.DivisionName
              regionName := record.RegionName
              stateName := record.StateName
              district := record.District
              pincode := record.Pincode } })
  isort (fun a b => decide (a.distance_km ≤ b.distance_km))
    (fromNeighborhoods ++ fromPincodes)

/-! ## `/api/v1/places/nearby/enhanced` -/
/-- Nested `pincodeInfo` object of an entry of
`/api/v1/places/nearby/enhanced`; unlike `PincodeDetails` it also carries
`matchType` and `matchDistance`. -/
structure EnhancedPincodeInfo : Type where
  officeName : String
  divisionName : String
  regionName : String
  stateName : String
  district : String
  pincode : String
  matchType : String
  matchDistance : ℚ
  deriving DecidableEq, Repr

/-- Entry of the `places` array of `/api/v1/places/nearby/enhanced`. -/
structure EnhancedPlaceEntry : Type where
  type : String
  placeName : String
  placeType : String
  country : String
  state : String
  region : String
  district : String
  pincode : String
  latitude : ℚ
  longitude : ℚ
  distance_km : ℚ
  pincodeInfo : Option EnhancedPincodeInfo
  deriving DecidableEq, Repr

/-- Model of the exact-match step: when the neighborhood carries a truthy
postal code, find the first postal record with an equal (truthy) postal
code string. -/
def exactPincodeMatch (pincodeData : List PincodeRecord) (place : Neighborhood) :
    Option PincodeRecord :=
  if place.pincode ≠ "" then
    pincodeData.find? (fun p => decide (p.Pincode ≠ "" ∧ p.Pincode = place.pincode))
  else none

/-- Model of the nearest-match step: postal records with coordinates,
paired with their raw distance to the neighborhood itself, filtered to
5 km, sorted ascending, first element. -/
def nearestPincodeWithin5km (hd : DistFn) (pincodeData : List PincodeRecord)
    (place : Neighborhood) : Option (PincodeRecord × ℚ) :=
  (isort (fun a b => decide (a.2 ≤ b.2))
    (((pincodeData.filter hasCoords).map (fun p =>
      (p, hd place.latitude place.longitude p.Latitude p.Longitude))).filter
      (fun pr => decide (pr.2 ≤ 5)))).head?

/-- Model of the `matchedPincode` variable: the exact match if any (no
`distance` property), else the nearest record within 5 km (with its
`distance`), else `null`. -/
def enhancedMatchedPincode (hd : DistFn) (pincodeData : List PincodeRecord)
    (place : Neighborhood) : Option (PincodeRecord × Option ℚ) :=
  match exactPincodeMatch pincodeData place with
  | some p => some (p, none)
  | none =>
      match nearestPincodeWithin5km hd pincodeData place with
      | some pd => some (pd.1, some pd.2)
      | none => none

/-- Model of the neighborhood entry pushed by the enhanced handler.  The
source computes `matchType` as `place.pincode ? "exact" : "nearest"` and
`matchDistance` as `matchedPincode.distance ? round(distance) : 0`
(`round2 0 = 0`, so the falsy-zero branch coincides with rounding). -/
def enhancedNeighborhoodEntry (hd : DistFn) (pincodeData : List PincodeRecord)
    (latitude longitude : ℚ) (place : Neighborhood) : EnhancedPlaceEntry :=
  { type := "neighborhood"
    placeName := place.placeName
    placeType := place.placeType
    country := place.country
    state := place.state
    region := place.region
    district := place.district
    pincode := place.pincode
    latitude := place.latitude
    longitude := place.longitude
    distance_km := round2 (hd latitude longitude place.latitude place.longitude)
    pincodeInfo := (enhancedMatchedPincode hd pincodeData place).map (fun m =>
      { officeName := m.1.OfficeName
        divisionName := m.1.DivisionName
        regionName := m.1.RegionName
        stateName := m.1.StateName
        district := m.1.District
        pincode := m.1.Pincode
        matchType := if place.pincode ≠ "" then "exact" else "nearest"
        matchDistance := match m.2 with | some d => round2 d | none => 0 }) }

/-- Model of the `alreadyIncluded` check of the standalone pass. -/
def standaloneAlreadyIncluded (nearbyPlaces : List EnhancedPlaceEntry)
    (record : PincodeRecord) : Bool :=
  nearbyPlaces.any (fun place => decide (place.pincode ≠ "" ∧ place.pincode = record.Pincode))

/-- Model of the standalone `pincode`-typed entry of the enhanced handler. -/
def standalonePincodeEntry (hd : DistFn) (latitude longitude : ℚ)
    (record : PincodeRecord) : EnhancedPlaceEntry :=
  { type := "pincode"
    placeName := record.OfficeName
    placeType := "Post Office"
    country := "India"
    state := record.StateName
    region := record.RegionName
    district := record.District
    pincode := record.Pincode
    latitude := record.Latitude
    longitude := record.Longitude
    distance_km := round2 (hd latitude longitude record.Latitude record.Longitude)
    pincodeInfo := some
      { officeName := record.OfficeName
        divisionName := record.DivisionName
        regionName := record.RegionName
        stateName := record.StateName
        district := record.District
        pincode := record.Pincode
        matchType := "direct"
        matchDistance := 0 } }

/-- One iteration of the standalone `pincodeData.forEach` pass of the
enhanced handler, appending the record unless it lacks coordinates, is out
of range, or its pincode is already present in the accumulated array. -/
def standaloneStep (hd : DistFn) (latitude longitude maxDistance : ℚ)
    (acc : List EnhancedPlaceEntry) (record : PincodeRecord) : List EnhancedPlaceEntry :=
  if hasCoords record then
    if hd latitude longitude record.Latitude record.Longitude ≤ maxDistance then
      if standaloneAlreadyIncluded acc record then acc
      else acc ++ [standalonePincodeEntry hd latitude longitude record]
    else acc
  else acc

/-- Model of `/api/v1/places/nearby/enhanced`: neighborhood entries within
the radius (with their matched pincode info), then the standalone pass over
the postal directory, the whole list sorted ascending by rounded distance. -/
def placesNearbyEnhanced (hd : DistFn) (neighborhoodsData : List Neighborhood)
    (pincodeData : List PincodeRecord) (latitude longitude maxDistance : ℚ) :
    List EnhancedPlaceEntry :=
  let fromNeighborhoods :=
    (neighborhoodsData.filter (fun place =>
      decide (hd latitude longitude place.latitude place.longitude ≤ maxDistance))).map
      (enhancedNeighborhoodEntry hd pincodeData latitude longitude)
  isort (fun a b => decide (a.distance_km ≤ b.distance_km))
    (pincodeData.foldl (standaloneStep hd latitude longitude maxDistance) fromNeighborhoods)

/-! ## Geo query-parameter validation -/
/-- Classification of a raw geo query parameter by how JavaScript sees it:
`missing` (absent), `emptyStr` (present but empty, falsy), `nonNumeric`
(present, truthy, but `parseFloat` yields `NaN`), or `numeric q`
(`parseFloat` yields `q`; covers numeric-prefix strings too, whose parsed
value is recorded here). -/
inductive GeoQueryInput : Type
  | missing
  | emptyStr
  | nonNumeric (s : String)
  | numeric (q : ℚ)
  deriving DecidableEq, Repr

/-- JavaScript truthiness of the raw parameter string. -/
def GeoQueryInput.truthy : GeoQueryInput → Bool
  | .missing => false
  | .emptyStr => false
  | .nonNumeric _ => true
  | .numeric _ => true

/-- Model of `parseFloat`, with `none` playing the role of `NaN`. -/
def GeoQueryInput.parseFloatQ : GeoQueryInput → Option ℚ
  | .missing => none
  | .emptyStr => none
  | .nonNumeric _ => none
  | .numeric q => some q

/-- Predicate for a present, non-empty, non-numeric parameter value. -/
def GeoQueryInput.isNonNumericStr : GeoQueryInput → Bool
  | .nonNumeric _ => true
  | _ => false

/-- Error message of the missing-parameter guard. -/
def requiredMsg : String := "lat and lng query parameters are required"

/-- Error message of the `isNaN` guard. -/
def invalidNumbersMsg : String := "lat, lng, and range must be valid numbers"

/-- Model of the parameter handling of `/api/v1/neighborhoods/nearby`:
`range` defaults to 50 whenever it is falsy (`range ? parseFloat(range) : 50`). -/
def validateNeighborhoodsNearbyParams (lat lng range : GeoQueryInput) :
    Except String (ℚ × ℚ × ℚ) :=
  if ¬ lat.truthy ∨ ¬ lng.truthy then .error requiredMsg
  else
    match lat.parseFloatQ, lng.parseFloatQ,
        (if range.truthy then range.parseFloatQ else some 50) with
    | some la, some lo, some r => .ok (la, lo, r)
    | _, _, _ => .error invalidNumbersMsg

/-- Model of the parameter handling shared by `/api/v1/pincode/nearby`,
`/api/v1/places/nearby` and `/api/v1/places/nearby/enhanced`: the
destructuring default `range = 50` applies only when `range` is absent,
after which `parseFloat` runs on whatever is present. -/
def validatePlacesNearbyParams (lat lng range : GeoQueryInput) :
    Except String (ℚ × ℚ × ℚ) :=
  if ¬ lat.truthy ∨ ¬ lng.truthy then .error requiredMsg
  else
    match lat.parseFloatQ, lng.parseFloatQ,
        (match range with
         | .missing => some (50 : ℚ)
         | r => r.parseFloatQ) with
    | some la, some lo, some r => .ok (la, lo, r)
    | _, _, _ => .error invalidNumbersMsg

/-- Proposition that the error message names at least one parameter of the
request that is indeed not a valid number. -/
def mentionsOffendingParam (lat lng range : GeoQueryInput) (msg : String) : Prop :=
  (lat.parseFloatQ = none ∧ strHasSub msg "lat" = true)
  ∨ (lng.parseFloatQ = none ∧ strHasSub msg "lng" = true)
  ∨ (range.parseFloatQ = none ∧ strHasSub msg "range" = true)

/-! ## Concrete data for witnesses and counterexamples -/
/-- Constant-zero distance function; the haversine distance also vanishes
whenever the two points coincide, as they do in the concrete scenarios
below. -/
def distZero : DistFn := fun _ _ _ _ => 0

/-- Constant distance function with value 9.996 km. -/
def distNine : DistFn := fun _ _ _ _ => Rat.divInt 9996 1000

/-- Neighborhood without a postal code. -/
def nbhPlain : Neighborhood :=
  { placeName := "Alpha", placeType := "Village", country := "India", state := "TS"
    region := "RegionA", district := "DistA", pincode := "", latitude := 1, longitude := 2 }

/-- The `/neighborhoods/nearby` entry produced for `nbhPlain` at distance 0. -/
def nbhEntryPlain : NearbyNeighborhood :=
  { placeName := "Alpha", placeType := "Village", country := "India", state := "TS"
    region := "RegionA", district := "DistA", pincode := "", distance_km := 0 }

/-- Neighborhood whose postal code does not occur in the postal directory. -/
def nbhWrongPincode : Neighborhood :=
  { placeName := "Beta", placeType := "Village", country := "India", state := "TS"
    region := "RegionA", district := "DistA", pincode := "999999"
    latitude := 10, longitude := 70 }

/-- Neighborhood whose postal code matches `pcr500001` exactly. -/
def nbhExact : Neighborhood :=
  { placeName := "Gamma", placeType := "Village", country := "India", state := "TS"
    region := "RegionA", district := "DistA", pincode := "500001"
    latitude := 10, longitude := 70 }

/-- Postal record with pincode 500001 at the same point as the
neighborhoods above. -/
def pcr500001 : PincodeRecord :=
  { Pincode := "500001", OfficeName := "Office1", DivisionName := "Div1"
    RegionName := "Reg1", StateName := "TS", District := "DistA"
    Latitude := 10, Longitude := 70 }

/-- Postal record with pincode 600001 at the same point. -/
def pcr600001 : PincodeRecord :=
  { Pincode := "600001", OfficeName := "Office2", DivisionName := "Div2"
    RegionName := "Reg2", StateName := "TS", District := "DistA"
    Latitude := 10, Longitude := 70 }

/-- Postal record used by the rounding counterexample. -/
def pcr996 : PincodeRecord :=
  { Pincode := "500001", OfficeName := "Office1", DivisionName := "Div1"
    RegionName := "Reg1", StateName := "TS", District := "DistA"
    Latitude := 1, Longitude := 1 }

/-- The standalone entry produced for `pcr600001`. -/
def eStandalone600001 : EnhancedPlaceEntry := standalonePincodeEntry distZero 10 70 pcr600001

/-- The enhanced neighborhood entry produced for `nbhExact`. -/
def eNbhExact : EnhancedPlaceEntry := enhancedNeighborhoodEntry distZero [pcr500001] 10 70 nbhExact

/-! ## Item filtering and the next-page indicator (`/api/v1/items`) -/
/-- Item of `data.json` (fields read by the `/api/v1/items` filters; other
fields are opaque and handled by the JSON-object model further below). -/
structure Item : Type where
  categoryId : String
  multiline_text : String
  languages : List String
  deriving DecidableEq, Repr

/-- Model of the search predicate: normalised haystack contains the
normalised needle. -/
def itemMatchesSearch (searchtext : String) (item : Item) : Bool :=
  strHasSub (normalizeText item.multiline_text) (normalizeText searchtext)

/-- Model of the three filter blocks of `/api/v1/items` (search filter,
sub-category filter, language filter with text extraction), where an
absent query parameter is `none` and an empty string parameter is falsy
exactly like in JavaScript. -/
def filterItems (jsonData : List Item) (searchtext : String)
    (subCategoryId languages : Option String) : List Item :=
  let d1 :=
    if searchtext ≠ "" then jsonData.filter (itemMatchesSearch searchtext) else jsonData
  let d2 :=
    match subCategoryId with
    | some sc => if sc ≠ "" then d1.filter (fun item => item.categoryId == sc) else d1
    | none => d1
  match languages with
  | some ls =>
      if ls ≠ "" then
        let langArray := splitCommas ls
        (d2.filter (fun item => item.languages.any (fun lang => langArray.contains lang))).map
          (fun item =>
            { item with multiline_text := extractMultilineText item.multiline_text langArray })
      else d2
  | none => d2

/-- Value interpolated into the template literal for a possibly-undefined
query parameter: JavaScript stringifies `undefined` as `"undefined"`. -/
def undefinedToString : Option String → String
  | some s => s
  | none => "undefined"

/-- Model of the `next_page` response field. -/
def nextPageField (page total_pages : Nat) : String :=
  if page < total_pages then Nat.repr (page + 1) else ""

/-- Model of the `next_page_api` response field (the template literal of
the handler, rebuilt by string concatenation). -/
def nextPageApiField (searchtext : String) (subCategoryId languages : Option String)
    (page limit total_pages : Nat) : String :=
  if page < total_pages then
    "/api/v1/items?searchtext=" ++ searchtext
      ++ "&sub-category-id=" ++ undefinedToString subCategoryId
      ++ "&languages=" ++ undefinedToString languages
      ++ "&current_page=" ++ Nat.repr (page + 1)
      ++ "&items_per_page=" ++ Nat.repr limit
  else ""

/-! ## JSON objects, shallow merge, update and delete -/
/-- Scalar JSON value.  The mutation handlers never inspect values except
for comparing the `category-id` field against the route parameter string,
so arrays and nested objects are not needed for any claim. -/
inductive JsVal : Type
  | str (s : String)
  | num (q : ℚ)
  | boolVal (b : Bool)
  | nullVal
  deriving DecidableEq, Repr

/-- JSON object as an ordered association list; objects produced by
`JSON.parse` have pairwise distinct keys, so `find?` below reads exactly
the value stored for a key. -/
abbrev Obj : Type := List (String × JsVal)

/-- Model of reading field `k` of an object. -/
def jsonGet (o : Obj) (k : String) : Option JsVal :=
  (o.find? (fun kv => decide (kv.1 = k))).map Prod.snd

/-- Model of the spread merge `{ ...old, ...new }`: the keys of `old` keep
their positions with values overridden by `new` where present, and the
keys of `new` that are absent from `old` are appended in order. -/
def spreadMerge (old new : Obj) : Obj :=
  old.map (fun kv => (kv.1, (jsonGet new kv.1).getD kv.2))
    ++ new.filter (fun kv => decide (jsonGet old kv.1 = none))

/-- Strict-equality test of the `category-id` field against the route id. -/
def matchesId (id : String) (item : Obj) : Bool :=
  decide (jsonGet item "category-id" = some (JsVal.str id))

/-- Model of `findIndex` + `jsonData[index] = { ...jsonData[index], ...updatedData }`:
replace the first matching item by its shallow merge with the body,
returning `none` when no item matches (the 404 path). -/
def updateFirst (id : String) (body : Obj) : List Obj → Option (List Obj)
  | [] => none
  | item :: rest =>
      if matchesId id item then some (spreadMerge item body :: rest)
      else (updateFirst id body rest).map (fun tail => item :: tail)

/-- Model of `findIndex` + `splice(index, 1)`: remove the first matching
item, returning `none` when no item matches (the 404 path). -/
def deleteFirst (id : String) : List Obj → Option (List Obj)
  | [] => none
  | item :: rest =>
      if matchesId id item then some rest
      else (deleteFirst id rest).map (fun tail => item :: tail)

/-- Model of the `DELETE /api/v1/item/:id` route: the flag is `false` on
the 404 path, in which case the store is returned untouched. -/
def deleteItemRoute (id : String) (data : List Obj) : Bool × List Obj :=
  match deleteFirst id data with
  | none => (false, data)
  | some d => (true, d)

/-- Model of the `PUT /api/v1/item/:id` route: the flag is `false` on the
404 path, in which case the store is returned untouched. -/
def updateItemRoute (id : String) (body : Obj) (data : List Obj) : Bool × List Obj :=
  match updateFirst id body data with
  | none => (false, data)
  | some d => (true, d)

/-- Concrete store and body used by the witnesses of the mutation claims. -/
def objA : Obj := [("category-id", JsVal.str "A"), ("foo", JsVal.str "old"), ("keep", JsVal.num 7)]

/-- Second concrete item, not matching id `"A"`. -/
def objB : Obj := [("category-id", JsVal.str "B"), ("other", JsVal.boolVal true)]

/-- Concrete update body for the C8 witness. -/
def bodyFoo : Obj := [("foo", JsVal.str "bar"), ("added", JsVal.nullVal)]

/-- Item used by the C7 counterexample data set. -/
def itemA : Item := { categoryId := "A", multiline_text := "Hello", languages := ["en"] }

/-! ## Theorems -/

theorem mem_insertSorted {α : Type} (le : α → α → Bool) (x a : α) :
    ∀ l : List α, a ∈ insertSorted le x l ↔ a = x ∨ a ∈ l := by
  intro l
  induction l with
  | nil => simp [insertSorted]
  | cons y ys ih =>
      by_cases h : le x y = true
      · simp [insertSorted, h]
      · simp only [insertSorted, if_neg h, List.mem_cons, ih]
        tauto

theorem mem_isort {α : Type} (le : α → α → Bool) (a : α) :
    ∀ l : List α, a ∈ isort le l ↔ a ∈ l := by
  intro l
  induction l with
  | nil => simp [isort]
  | cons x xs ih => simp [isort, mem_insertSorted, ih]

theorem head?_insertSorted {α : Type} (le : α → α → Bool) (x : α) (l : List α) :
    (insertSorted le x l).head? = some x ∨ (insertSorted le x l).head? = l.head? := by
  cases l with
  | nil => left; rfl
  | cons y ys =>
      by_cases h : le x y = true
      · left; simp [insertSorted, h]
      · right; simp [insertSorted, h]

theorem chain'_insertSorted {α : Type} (le : α → α → Bool)
    (total : ∀ a b, le a b = true ∨ le b a = true) (x : α) :
    ∀ l : List α, List.Chain' (fun a b => le a b = true) l →
      List.Chain' (fun a b => le a b = true) (insertSorted le x l) := by
  intro l
  induction l with
  | nil => intro _; simp [insertSorted]
  | cons y ys ih =>
      intro h
      by_cases hxy : le x y = true
      · simp only [insertSorted, if_pos hxy]
        exact List.chain'_cons.mpr ⟨hxy, h⟩
      · have hyx : le y x = true := (total x y).resolve_left hxy
        have hys : List.Chain' (fun a b => le a b = true) ys := h.tail
        have hins := ih hys
        simp only [insertSorted, if_neg hxy]
        rw [List.chain'_cons']
        refine ⟨?_, hins⟩
        intro z hz
        rcases head?_insertSorted le x ys with hh | hh
        · rw [hh] at hz
          cases hz
          exact hyx
        · rw [hh] at hz
          cases ys with
          | nil => cases hz
          | cons y₁ ys₁ =>
              cases hz
              exact (List.chain'_cons.mp h).1

theorem chain'_isort {α : Type} (le : α → α → Bool)
    (total : ∀ a b, le a b = true ∨ le b a = true) :
    ∀ l : List α, List.Chain' (fun a b => le a b = true) (isort le l) := by
  intro l
  induction l with
  | nil => simp [isort]
  | cons x xs ih => exact chain'_insertSorted le total x (isort le xs) ih

theorem listStartsWith_append (xs rest : List Char) :
    listStartsWith xs (xs ++ rest) = true := by
  induction xs with
  | nil => rfl
  | cons a as ih => simp [listStartsWith, ih]

theorem listSub_nil_needle : ∀ l : List Char, listSub [] l = true
  | [] => rfl
  | _ :: _ => rfl

theorem listSub_self_append (needle post : List Char) :
    listSub needle (needle ++ post) = true := by
  cases needle with
  | nil => exact listSub_nil_needle post
  | cons a as =>
      show (listStartsWith (a :: as) ((a :: as) ++ post) || _) = true
      rw [listStartsWith_append]
      rfl

theorem listSub_of_parts (needle : List Char) :
    ∀ (pre post : List Char), listSub needle (pre ++ needle ++ post) = true := by
  intro pre post
  induction pre with
  | nil => simpa using listSub_self_append needle post
  | cons a as ih =>
      have hshape : (a :: as) ++ needle ++ post = a :: (as ++ needle ++ post) := by simp
      rw [hshape]
      show (listStartsWith needle (a :: (as ++ needle ++ post))
            || listSub needle (as ++ needle ++ post)) = true
      rw [ih]
      simp

theorem toList_append (s t : String) : (s ++ t).toList = s.toList ++ t.toList := rfl

theorem strHasSub_of_parts (pre needle post : String) :
    strHasSub (pre ++ needle ++ post) needle = true := by
  unfold strHasSub
  rw [toList_append, toList_append]
  exact listSub_of_parts needle.toList pre.toList post.toList

theorem round2_eq (q : ℚ) : round2 q = ((round (100 * q) : Int) : ℚ) / 100 := by
  have h2d : ((2 * q.den : Nat) : ℚ) ≠ 0 := by
    exact_mod_cast mul_ne_zero two_ne_zero q.den_nz
  have hnum : 100 * q + 1 / 2 = ((200 * q.num + q.den : Int) : ℚ) / ((2 * q.den : Nat) : ℚ) := by
    rw [eq_div_iff h2d]
    push_cast
    linear_combination 200 * Rat.mul_den_eq_num q
  have hfloor : ⌊(100 : ℚ) * q + 1 / 2⌋ = (200 * q.num + q.den) / (2 * (q.den : Int)) := by
    rw [hnum, Rat.floor_intCast_div_natCast]
    push_cast
    rfl
  rw [round2, Rat.divInt_eq_div, round_eq, hfloor]
  norm_num

theorem round2_le (q : ℚ) : round2 q ≤ q + 1 / 200 := by
  rw [round2_eq]
  have h : ((round (100 * q) : Int) : ℚ) ≤ 100 * q + 1 / 2 := by
    rw [round_eq]
    exact_mod_cast Int.floor_le ((100 : ℚ) * q + 1 / 2)
  have h2 : ((round (100 * q) : Int) : ℚ) / 100 ≤ (100 * q + 1 / 2) / 100 :=
    (div_le_div_iff_of_pos_right (by norm_num)).mpr h
  have h3 : (100 * q + 1 / 2) / 100 = q + 1 / 200 := by ring
  rw [h3] at h2
  exact h2

/-! ## Lemmas about the geo pipelines -/
theorem chain'_head?_min {α : Type} (R : α → α → Prop)
    (htrans : ∀ a b c, R a b → R b c → R a c) :
    ∀ (l : List α) (a : α), List.Chain' R l → l.head? = some a →
      ∀ b ∈ l, b = a ∨ R a b := by
  intro l
  induction l with
  | nil => intro a _ ha; cases ha
  | cons x xs ih =>
      intro a hch ha b hb
      have hax : a = x := by simpa using ha.symm
      subst hax
      rcases List.mem_cons.mp hb with rfl | hb
      · exact Or.inl rfl
      · cases xs with
        | nil => cases hb
        | cons y ys =>
            have hxy : R a y := (List.chain'_cons.mp hch).1
            have hch' : List.Chain' R (y :: ys) := (List.chain'_cons.mp hch).2
            rcases ih y hch' rfl b hb with rfl | hyb
            · exact Or.inr hxy
            · exact Or.inr (htrans _ _ _ hxy hyb)

theorem mem_init_foldl_standaloneStep (hd : DistFn) (lat lng maxD : ℚ) :
    ∀ (l : List PincodeRecord) (init : List EnhancedPlaceEntry) (e : EnhancedPlaceEntry),
      e ∈ init → e ∈ l.foldl (standaloneStep hd lat lng maxD) init := by
  intro l
  induction l with
  | nil => intro init e he; exact he
  | cons r rest ih =>
      intro init e he
      simp only [List.foldl_cons]
      apply ih
      unfold standaloneStep
      split
      · split
        · split
          · exact he
          · exact List.mem_append_left _ he
        · exact he
      · exact he

theorem mem_foldl_standaloneStep (hd : DistFn) (lat lng maxD : ℚ) :
    ∀ (l : List PincodeRecord) (init : List EnhancedPlaceEntry) (e : EnhancedPlaceEntry),
      e ∈ l.foldl (standaloneStep hd lat lng maxD) init →
      e ∈ init ∨ ∃ r ∈ l, hasCoords r = true
        ∧ hd lat lng r.Latitude r.Longitude ≤ maxD
        ∧ e = standalonePincodeEntry hd lat lng r := by
  intro l
  induction l with
  | nil => intro init e he; exact Or.inl he
  | cons r rest ih =>
      intro init e he
      simp only [List.foldl_cons] at he
      rcases ih _ e he with hin | ⟨r', hr', hc, hdist, he'⟩
      · unfold standaloneStep at hin
        split at hin
        · split at hin
          · split at hin
            · exact Or.inl hin
            · rcases List.mem_append.mp hin with h1 | h2
              · exact Or.inl h1
              · refine Or.inr ⟨r, List.mem_cons_self r rest, by assumption, by assumption,
                  List.mem_singleton.mp h2⟩
          · exact Or.inl hin
        · exact Or.inl hin
      · exact Or.inr ⟨r', List.mem_cons_of_mem _ hr', hc, hdist, he'⟩

theorem foldl_standaloneStep_no_dup (hd : DistFn) (lat lng maxD : ℚ) (P : String) :
    ∀ (l : List PincodeRecord) (init : List EnhancedPlaceEntry),
      (∃ e0 ∈ init, e0.pincode ≠ "" ∧ e0.pincode = P) →
      (∀ e ∈ init, e.type = "pincode" → e.pincode ≠ P) →
      ∀ e ∈ l.foldl (standaloneStep hd lat lng maxD) init, e.type = "pincode" → e.pincode ≠ P := by
  intro l
  induction l with
  | nil => intro init _ hinv e he ht; exact hinv e he ht
  | cons r rest ih =>
      intro init h0 hinv e he ht
      simp only [List.foldl_cons] at he
      refine ih (standaloneStep hd lat lng maxD init r) ?_ ?_ e he ht
      · obtain ⟨e0, he0, hne, heq⟩ := h0
        refine ⟨e0, ?_, hne, heq⟩
        unfold standaloneStep
        split
        · split
          · split
            · exact he0
            · exact List.mem_append_left _ he0
          · exact he0
        · exact he0
      · intro e' he' ht'
        unfold standaloneStep at he'
        split at he'
        · split at he'
          · split at he'
            · exact hinv e' he' ht'
            · rcases List.mem_append.mp he' with hin | hsing
              · exact hinv e' hin ht'
              · rename_i hcoords hdist hnotinc
                rw [List.mem_singleton.mp hsing]
                intro hP
                apply hnotinc
                obtain ⟨e0, he0, hne, heq⟩ := h0
                unfold standaloneAlreadyIncluded
                rw [List.any_eq_true]
                refine ⟨e0, he0, decide_eq_true ⟨hne, ?_⟩⟩
                rw [heq]
                exact hP.symm
          · exact hinv e' he' ht'
        · exact hinv e' he' ht'

theorem exactPincodeMatch_some_spec {pd : List PincodeRecord} {place : Neighborhood}
    {p : PincodeRecord} (h : exactPincodeMatch pd place = some p) :
    place.pincode ≠ "" ∧ p ∈ pd ∧ p.Pincode ≠ "" ∧ p.Pincode = place.pincode := by
  unfold exactPincodeMatch at h
  split at h
  · have hmem := List.mem_of_find?_eq_some h
    have hpred := List.find?_some h
    exact ⟨by assumption, hmem, (of_decide_eq_true hpred).1, (of_decide_eq_true hpred).2⟩
  · cases h

theorem exactPincodeMatch_isSome {pd : List PincodeRecord} {place : Neighborhood}
    (hpc : place.pincode ≠ "")
    (hex : ∃ p ∈ pd, p.Pincode ≠ "" ∧ p.Pincode = place.pincode) :
    ∃ p, exactPincodeMatch pd place = some p := by
  unfold exactPincodeMatch
  rw [if_pos hpc]
  obtain ⟨p, hp, h1, h2⟩ := hex
  have : (pd.find? (fun p => decide (p.Pincode ≠ "" ∧ p.Pincode = place.pincode))).isSome := by
    rw [List.find?_isSome]
    exact ⟨p, hp, decide_eq_true ⟨h1, h2⟩⟩
  obtain ⟨p', hp'⟩ := Option.isSome_iff_exists.mp this
  exact ⟨p', hp'⟩

theorem exactPincodeMatch_none {pd : List PincodeRecord} {place : Neighborhood}
    (h : ¬ (place.pincode ≠ "" ∧ ∃ p ∈ pd, p.Pincode ≠ "" ∧ p.Pincode = place.pincode)) :
    exactPincodeMatch pd place = none := by
  unfold exactPincodeMatch
  split
  · rw [List.find?_eq_none]
    intro p hp hpred
    refine h ⟨by assumption, p, hp, ?_, ?_⟩
    · exact (of_decide_eq_true hpred).1
    · exact (of_decide_eq_true hpred).2
  · rfl

theorem nearestPincodeWithin5km_none_iff (hd : DistFn) (pd : List PincodeRecord)
    (place : Neighborhood) :
    nearestPincodeWithin5km hd pd place = none ↔
      ∀ p ∈ pd, hasCoords p = true →
        ¬ (hd place.latitude place.longitude p.Latitude p.Longitude ≤ 5) := by
  unfold nearestPincodeWithin5km
  rw [List.head?_eq_none_iff]
  constructor
  · intro h p hp hc hd5
    have hmem : (p, hd place.latitude place.longitude p.Latitude p.Longitude)
        ∈ isort (fun a b => decide (a.2 ≤ b.2))
          (((pd.filter hasCoords).map (fun p =>
            (p, hd place.latitude place.longitude p.Latitude p.Longitude))).filter
            (fun pr => decide (pr.2 ≤ 5))) := by
      rw [mem_isort]
      exact List.mem_filter.mpr
        ⟨List.mem_map.mpr ⟨p, List.mem_filter.mpr ⟨hp, hc⟩, rfl⟩, decide_eq_true hd5⟩
    rw [h] at hmem
    cases hmem
  · intro h
    apply List.eq_nil_iff_forall_not_mem.mpr
    intro x hx
    rw [mem_isort] at hx
    obtain ⟨hx1, hx2⟩ := List.mem_filter.mp hx
    obtain ⟨p, hp, rfl⟩ := List.mem_map.mp hx1
    obtain ⟨hp1, hp2⟩ := List.mem_filter.mp hp
    exact h p hp1 hp2 (of_decide_eq_true hx2)

theorem nearestPincodeWithin5km_some_spec (hd : DistFn) (pd : List PincodeRecord)
    (place : Neighborhood) (m : PincodeRecord × ℚ)
    (h : nearestPincodeWithin5km hd pd place = some m) :
    m.1 ∈ pd ∧ hasCoords m.1 = true
      ∧ m.2 = hd place.latitude place.longitude m.1.Latitude m.1.Longitude
      ∧ m.2 ≤ 5
      ∧ ∀ q ∈ pd, hasCoords q = true →
          hd place.latitude place.longitude q.Latitude q.Longitude ≤ 5 →
          m.2 ≤ hd place.latitude place.longitude q.Latitude q.Longitude := by
  unfold nearestPincodeWithin5km at h
  have hm_mem : m ∈ isort (fun a b => decide (a.2 ≤ b.2))
      (((pd.filter hasCoords).map (fun p =>
        (p, hd place.latitude place.longitude p.Latitude p.Longitude))).filter
        (fun pr => decide (pr.2 ≤ 5))) :=
    List.mem_of_mem_head? (by simp [h])
  have hm_mem' := hm_mem
  rw [mem_isort] at hm_mem'
  obtain ⟨h1, h2⟩ := List.mem_filter.mp hm_mem'
  obtain ⟨p, hp, hpe⟩ := List.mem_map.mp h1
  obtain ⟨hp1, hp2⟩ := List.mem_filter.mp hp
  have htotal : ∀ a b : PincodeRecord × ℚ,
      decide (a.2 ≤ b.2) = true ∨ decide (b.2 ≤ a.2) = true := by
    intro a b
    rcases le_total a.2 b.2 with hab | hba
    · exact Or.inl (decide_eq_true hab)
    · exact Or.inr (decide_eq_true hba)
  have hch := chain'_isort (fun a b : PincodeRecord × ℚ => decide (a.2 ≤ b.2)) htotal
    (((pd.filter hasCoords).map (fun p =>
      (p, hd place.latitude place.longitude p.Latitude p.Longitude))).filter
      (fun pr => decide (pr.2 ≤ 5)))
  have hmin := chain'_head?_min (fun a b : PincodeRecord × ℚ => decide (a.2 ≤ b.2) = true)
    (fun a b c hab hbc =>
      decide_eq_true (le_trans (of_decide_eq_true hab) (of_decide_eq_true hbc)))
    _ m hch h
  refine ⟨?_, ?_, ?_, ?_, ?_⟩
  · rw [← hpe]; exact hp1
  · rw [← hpe]; exact hp2
  · rw [← hpe]
  · exact of_decide_eq_true h2
  · intro q hq hqc hq5
    have hqmem : (q, hd place.latitude place.longitude q.Latitude q.Longitude)
        ∈ isort (fun a b : PincodeRecord × ℚ => decide (a.2 ≤ b.2))
          (((pd.filter hasCoords).map (fun p =>
            (p, hd place.latitude place.longitude p.Latitude p.Longitude))).filter
            (fun pr => decide (pr.2 ≤ 5))) := by
      rw [mem_isort]
      exact List.mem_filter.mpr
        ⟨List.mem_map.mpr ⟨q, List.mem_filter.mpr ⟨hq, hqc⟩, rfl⟩, decide_eq_true hq5⟩
    rcases hmin _ hqmem with heqq | hle
    · rw [← heqq]
    · exact of_decide_eq_true hle

/-! ## Claim C3 (distance bound and ordering of nearby results) -/
/-- C3 (amended): in all four nearby endpoints the reported distances are
non-decreasing across the returned sequence; for `/neighborhoods/nearby`
and `/pincode/nearby` (which filter on the rounded distance) every
reported `distance_km` is at most the radius, while for `/places/nearby`
and `/places/nearby/enhanced` (which filter on the raw distance and then
round for display) the reported value can exceed the radius by up to
0.005 km. -/
theorem C3_nearby_results (hd : DistFn) (nd : List Neighborhood) (pd : List PincodeRecord)
    (lat lng maxD : ℚ) :
    (∀ e ∈ neighborhoodsNearby hd nd lat lng maxD, e.distance_km ≤ maxD)
    ∧ List.Chain' (fun a b => a.distance_km ≤ b.distance_km)
        (neighborhoodsNearby hd nd lat lng maxD)
    ∧ (∀ e ∈ pincodeNearby hd pd lat lng maxD, e.distance_km ≤ maxD)
    ∧ List.Chain' (fun a b => a.distance_km ≤ b.distance_km)
        (pincodeNearby hd pd lat lng maxD)
    ∧ (∀ e ∈ placesNearby hd nd pd lat lng maxD, e.distance_km ≤ maxD + 1 / 200)
    ∧ List.Chain' (fun a b => a.distance_km ≤ b.distance_km)
        (placesNearby hd nd pd lat lng maxD)
    ∧ (∀ e ∈ placesNearbyEnhanced hd nd pd lat lng maxD, e.distance_km ≤ maxD + 1 / 200)
    ∧ List.Chain' (fun a b => a.distance_km ≤ b.distance_km)
        (placesNearbyEnhanced hd nd pd lat lng maxD) := by
  have hsort : ∀ {T : Type} (key : T → ℚ) (L : List T),
      List.Chain' (fun a b : T => key a ≤ key b)
        (isort (fun a b => decide (key a ≤ key b)) L) := by
    intro T key L
    have htotal : ∀ a b : T, decide (key a ≤ key b) = true ∨ decide (key b ≤ key a) = true := by
      intro a b
      rcases le_total (key a) (key b) with h | h
      · exact Or.inl (decide_eq_true h)
      · exact Or.inr (decide_eq_true h)
    exact (chain'_isort _ htotal L).imp (fun a b h => of_decide_eq_true h)
  have hround : ∀ d : ℚ, d ≤ maxD → round2 d ≤ maxD + 1 / 200 := by
    intro d hdle
    exact le_trans (round2_le d) (add_le_add_right hdle _)
  refine ⟨?_, ?_, ?_, ?_, ?_, ?_, ?_, ?_⟩
  · intro e he
    unfold neighborhoodsNearby at he
    rw [mem_isort] at he
    exact of_decide_eq_true (List.mem_filter.mp he).2
  · unfold neighborhoodsNearby
    exact hsort (fun e : NearbyNeighborhood => e.distance_km) _
  · intro e he
    unfold pincodeNearby at he
    rw [mem_isort] at he
    exact of_decide_eq_true (List.mem_filter.mp he).2
  · unfold pincodeNearby
    exact hsort (fun e : NearbyPincode => e.distance_km) _
  · intro e he
    simp only [placesNearby] at he
    rw [mem_isort] at he
    rcases List.mem_append.mp he with hn | hp
    · obtain ⟨place, hpl, rfl⟩ := List.mem_map.mp hn
      exact hround _ (of_decide_eq_true (List.mem_filter.mp hpl).2)
    · obtain ⟨record, hrec, rfl⟩ := List.mem_map.mp hp
      exact hround _ (of_decide_eq_true (List.mem_filter.mp hrec).2)
  · simp only [placesNearby]
    exact hsort (fun e : PlaceEntry => e.distance_km) _
  · intro e he
    simp only [placesNearbyEnhanced] at he
    rw [mem_isort] at he
    rcases mem_foldl_standaloneStep hd lat lng maxD pd _ e he with hin | ⟨r, _, _, hdist, rfl⟩
    · obtain ⟨place, hpl, rfl⟩ := List.mem_map.mp hin
      exact hround _ (of_decide_eq_true (List.mem_filter.mp hpl).2)
    · exact hround _ hdist
  · simp only [placesNearbyEnhanced]
    exact hsort (fun e : EnhancedPlaceEntry => e.distance_km) _

/-- Witness for C3 on a concrete neighborhood at distance 0. -/
theorem C3_nearby_results_witness :
    nbhEntryPlain ∈ neighborhoodsNearby distZero [nbhPlain] 0 0 50
    ∧ nbhEntryPlain.distance_km ≤ 50 :=
  ⟨by decide, (C3_nearby_results distZero [nbhPlain] [] 0 0 50).1 nbhEntryPlain (by decide)⟩

/-- Counterexample to C3 as stated: `/places/nearby` admits a record at
raw distance 9.996 km with requested radius 9.997 km, but reports the
rounded distance 10.00 km, which exceeds the radius. -/
theorem C3_nearby_results_counterexample :
    (placesNearby distNine [] [pcr996] 0 0 (Rat.divInt 9997 1000)).map
      (fun e => e.distance_km) = [10]
    ∧ ¬ ((10 : ℚ) ≤ Rat.divInt 9997 1000) := by decide

/-! ## Claim C6 (no standalone entry for an exactly matched postal record) -/
/-- C6: when a neighborhood inside the query radius carries a postal code
equal to the code of a postal record, no `pincode`-typed entry with that
code appears in the enhanced response. -/
theorem C6_exact_match_not_standalone (hd : DistFn) (nd : List Neighborhood)
    (pd : List PincodeRecord) (lat lng maxD : ℚ) (place : Neighborhood) (r : PincodeRecord)
    (hplace : place ∈ nd)
    (hin : hd lat lng place.latitude place.longitude ≤ maxD)
    (hpc : place.pincode ≠ "")
    (hr : r ∈ pd) (heq : r.Pincode = place.pincode) :
    ∀ e ∈ placesNearbyEnhanced hd nd pd lat lng maxD,
      e.type = "pincode" → e.pincode ≠ r.Pincode := by
  intro e he ht
  simp only [placesNearbyEnhanced] at he
  rw [mem_isort] at he
  have hentry_mem : enhancedNeighborhoodEntry hd pd lat lng place ∈
      (nd.filter (fun pl => decide (hd lat lng pl.latitude pl.longitude ≤ maxD))).map
        (enhancedNeighborhoodEntry hd pd lat lng) :=
    List.mem_map.mpr ⟨place, List.mem_filter.mpr ⟨hplace, decide_eq_true hin⟩, rfl⟩
  have h0 : ∃ e0 ∈ (nd.filter (fun pl =>
      decide (hd lat lng pl.latitude pl.longitude ≤ maxD))).map
        (enhancedNeighborhoodEntry hd pd lat lng),
      e0.pincode ≠ "" ∧ e0.pincode = r.Pincode :=
    ⟨enhancedNeighborhoodEntry hd pd lat lng place, hentry_mem, hpc, heq.symm⟩
  have hinv : ∀ e' ∈ (nd.filter (fun pl =>
      decide (hd lat lng pl.latitude pl.longitude ≤ maxD))).map
        (enhancedNeighborhoodEntry hd pd lat lng),
      e'.type = "pincode" → e'.pincode ≠ r.Pincode := by
    intro e' he' ht'
    obtain ⟨pl, _, rfl⟩ := List.mem_map.mp he'
    simp [enhancedNeighborhoodEntry] at ht'
  exact foldl_standaloneStep_no_dup hd lat lng maxD r.Pincode pd _ h0 hinv e he ht

/-- Witness for C6: with an exactly matched record 500001 and a second
record 600001, the response contains the standalone 600001 entry and the
theorem applies to it. -/
theorem C6_exact_match_not_standalone_witness :
    (nbhExact ∈ [nbhExact]
      ∧ distZero 10 70 nbhExact.latitude nbhExact.longitude ≤ (50 : ℚ)
      ∧ nbhExact.pincode ≠ ""
      ∧ pcr500001 ∈ [pcr500001, pcr600001]
      ∧ pcr500001.Pincode = nbhExact.pincode)
    ∧ eStandalone600001 ∈ placesNearbyEnhanced distZero [nbhExact] [pcr500001, pcr600001] 10 70 50
    ∧ eStandalone600001.type = "pincode"
    ∧ eStandalone600001.pincode ≠ pcr500001.Pincode :=
  ⟨by decide, by decide, by decide,
   C6_exact_match_not_standalone distZero [nbhExact] [pcr500001, pcr600001] 10 70 50
     nbhExact pcr500001 (by decide) (by decide) (by decide) (by decide) (by decide)
     eStandalone600001 (by decide) (by decide)⟩

/-! ## Claim C1 (enhanced pincode matching state machine) -/
/-- C1 (amended): every neighborhood-typed entry of the enhanced response
comes from a neighborhood within the query radius, and its `pincodeInfo`
follows the matching steps of the handler: an exact postal-code match is
attached with `matchType = "exact"`; otherwise the closest postal record
within 5 km of the neighborhood itself is attached, but tagged `"exact"`
whenever the neighborhood carries any postal code and `"nearest"` only
when it carries none; otherwise `pincodeInfo` is null. -/
theorem C1_enhanced_pincode_state_machine (hd : DistFn) (nd : List Neighborhood)
    (pd : List PincodeRecord) (lat lng maxD : ℚ) (e : EnhancedPlaceEntry)
    (he : e ∈ placesNearbyEnhanced hd nd pd lat lng maxD)
    (ht : e.type = "neighborhood") :
    ∃ place ∈ nd,
      hd lat lng place.latitude place.longitude ≤ maxD
      ∧ e = enhancedNeighborhoodEntry hd pd lat lng place
      ∧ ((place.pincode ≠ "" ∧ ∃ p ∈ pd, p.Pincode ≠ "" ∧ p.Pincode = place.pincode) →
          ∃ info, e.pincodeInfo = some info ∧ info.pincode = place.pincode
            ∧ info.matchType = "exact")
      ∧ (¬ (place.pincode ≠ "" ∧ ∃ p ∈ pd, p.Pincode ≠ "" ∧ p.Pincode = place.pincode) →
          ((∃ p ∈ pd, hasCoords p = true
              ∧ hd place.latitude place.longitude p.Latitude p.Longitude ≤ 5) →
            ∃ info p, e.pincodeInfo = some info
              ∧ p ∈ pd ∧ hasCoords p = true
              ∧ hd place.latitude place.longitude p.Latitude p.Longitude ≤ 5
              ∧ info.pincode = p.Pincode
              ∧ (∀ q ∈ pd, hasCoords q = true →
                  hd place.latitude place.longitude q.Latitude q.Longitude ≤ 5 →
                  hd place.latitude place.longitude p.Latitude p.Longitude
                    ≤ hd place.latitude place.longitude q.Latitude q.Longitude)
              ∧ info.matchType = (if place.pincode ≠ "" then "exact" else "nearest"))
          ∧ ((∀ p ∈ pd, hasCoords p = true →
                ¬ hd place.latitude place.longitude p.Latitude p.Longitude ≤ 5) →
              e.pincodeInfo = none)) := by
  simp only [placesNearbyEnhanced] at he
  rw [mem_isort] at he
  rcases mem_foldl_standaloneStep hd lat lng maxD pd _ e he with hin | ⟨r, _, _, _, rfl⟩
  swap
  · simp [standalonePincodeEntry] at ht
  obtain ⟨place, hpl, rfl⟩ := List.mem_map.mp hin
  obtain ⟨hnd, hdist⟩ := List.mem_filter.mp hpl
  refine ⟨place, hnd, of_decide_eq_true hdist, rfl, ?_, ?_⟩
  · rintro ⟨hpc, hex⟩
    obtain ⟨p0, hp0⟩ := exactPincodeMatch_isSome hpc hex
    have hspec := exactPincodeMatch_some_spec hp0
    have hinfo : (enhancedNeighborhoodEntry hd pd lat lng place).pincodeInfo
        = some { officeName := p0.OfficeName, divisionName := p0.DivisionName
                 regionName := p0.RegionName, stateName := p0.StateName
                 district := p0.District, pincode := p0.Pincode
                 matchType := if place.pincode ≠ "" then "exact" else "nearest"
                 matchDistance := 0 } := by
      simp only [enhancedNeighborhoodEntry, enhancedMatchedPincode, hp0, Option.map_some']
    refine ⟨_, hinfo, hspec.2.2.2, ?_⟩
    show (if place.pincode ≠ "" then "exact" else "nearest") = "exact"
    rw [if_pos hpc]
  · intro hneg
    have hnone := exactPincodeMatch_none hneg
    constructor
    · rintro ⟨p, hp, hc, h5⟩
      cases hnm : nearestPincodeWithin5km hd pd place with
      | none =>
          exact absurd h5 ((nearestPincodeWithin5km_none_iff hd pd place).mp hnm p hp hc)
      | some m =>
          have hspec := nearestPincodeWithin5km_some_spec hd pd place m hnm
          have hinfo : (enhancedNeighborhoodEntry hd pd lat lng place).pincodeInfo
              = some { officeName := m.1.OfficeName, divisionName := m.1.DivisionName
                       regionName := m.1.RegionName, stateName := m.1.StateName
                       district := m.1.District, pincode := m.1.Pincode
                       matchType := if place.pincode ≠ "" then "exact" else "nearest"
                       matchDistance := round2 m.2 } := by
            simp only [enhancedNeighborhoodEntry, enhancedMatchedPincode, hnone, hnm,
              Option.map_some']
          refine ⟨_, m.1, hinfo, hspec.1, hspec.2.1, ?_, rfl, ?_, rfl⟩
          · rw [← hspec.2.2.1]
            exact hspec.2.2.2.1
          · intro q hq hqc hq5
            have hmin := hspec.2.2.2.2 q hq hqc hq5
            rw [hspec.2.2.1] at hmin
            exact hmin
    · intro hnone5
      have hnm : nearestPincodeWithin5km hd pd place = none :=
        (nearestPincodeWithin5km_none_iff hd pd place).mpr hnone5
      show (enhancedNeighborhoodEntry hd pd lat lng place).pincodeInfo = none
      simp only [enhancedNeighborhoodEntry, enhancedMatchedPincode, hnone, hnm,
        Option.map_none']

/-- Witness for C1 in the exact-match scenario. -/
theorem C1_enhanced_pincode_state_machine_witness :
    eNbhExact ∈ placesNearbyEnhanced distZero [nbhExact] [pcr500001] 10 70 50
    ∧ eNbhExact.type = "neighborhood"
    ∧ (∃ place ∈ [nbhExact],
        distZero 10 70 place.latitude place.longitude ≤ 50
        ∧ eNbhExact = enhancedNeighborhoodEntry distZero [pcr500001] 10 70 place
        ∧ ((place.pincode ≠ "" ∧ ∃ p ∈ [pcr500001], p.Pincode ≠ "" ∧ p.Pincode = place.pincode) →
            ∃ info, eNbhExact.pincodeInfo = some info ∧ info.pincode = place.pincode
              ∧ info.matchType = "exact")
        ∧ (¬ (place.pincode ≠ "" ∧ ∃ p ∈ [pcr500001], p.Pincode ≠ "" ∧ p.Pincode = place.pincode) →
            ((∃ p ∈ [pcr500001], hasCoords p = true
                ∧ distZero place.latitude place.longitude p.Latitude p.Longitude ≤ 5) →
              ∃ info p, eNbhExact.pincodeInfo = some info
                ∧ p ∈ [pcr500001] ∧ hasCoords p = true
                ∧ distZero place.latitude place.longitude p.Latitude p.Longitude ≤ 5
                ∧ info.pincode = p.Pincode
                ∧ (∀ q ∈ [pcr500001], hasCoords q = true →
                    distZero place.latitude place.longitude q.Latitude q.Longitude ≤ 5 →
                    distZero place.latitude place.longitude p.Latitude p.Longitude
                      ≤ distZero place.latitude place.longitude q.Latitude q.Longitude)
                ∧ info.matchType = (if place.pincode ≠ "" then "exact" else "nearest"))
            ∧ ((∀ p ∈ [pcr500001], hasCoords p = true →
                  ¬ distZero place.latitude place.longitude p.Latitude p.Longitude ≤ 5) →
                eNbhExact.pincodeInfo = none))) :=
  ⟨by decide, by decide,
   C1_enhanced_pincode_state_machine distZero [nbhExact] [pcr500001] 10 70 50 eNbhExact
     (by decide) (by decide)⟩

/-- Counterexample to C1 as stated: the neighborhood carries the postal
code 999999, which has no exact match in the directory, so the record
500001 is attached through the nearest-match step, yet the response tags
it `matchType = "exact"` instead of the claimed NEAREST tag. -/
theorem C1_enhanced_pincode_counterexample :
    ((placesNearbyEnhanced distZero [nbhWrongPincode] [pcr500001] 10 70 50).filter
      (fun e => e.type == "neighborhood")).map
      (fun e => e.pincodeInfo.map (fun i => (i.pincode, i.matchType)))
      = [some ("500001", "exact")]
    ∧ nbhWrongPincode.pincode = "999999"
    ∧ (∀ p ∈ [pcr500001], ¬ p.Pincode = nbhWrongPincode.pincode) := by decide

/-! ## Lemmas about JSON objects and the mutation routes -/
theorem jsonGet_cons (k₀ : String) (v : JsVal) (rest : Obj) (k : String) :
    jsonGet ((k₀, v) :: rest) k = if k₀ = k then some v else jsonGet rest k := by
  by_cases h : k₀ = k <;> simp [jsonGet, List.find?_cons, h]

theorem jsonGet_map_override (new : Obj) (k : String) :
    ∀ old : Obj,
      jsonGet (old.map (fun kv => (kv.1, (jsonGet new kv.1).getD kv.2))) k
        = (jsonGet old k).map (fun w => (jsonGet new k).getD w) := by
  intro old
  induction old with
  | nil => rfl
  | cons kv rest ih =>
      obtain ⟨k₀, v⟩ := kv
      by_cases h : k₀ = k
      · subst h
        simp [jsonGet_cons]
      · simp only [List.map_cons, jsonGet_cons, if_neg h, ih]

theorem jsonGet_append (b : Obj) (k : String) :
    ∀ a : Obj, jsonGet (a ++ b) k =
      match jsonGet a k with
      | some v => some v
      | none => jsonGet b k := by
  intro a
  induction a with
  | nil => simp [jsonGet]
  | cons kv rest ih =>
      obtain ⟨k₀, v⟩ := kv
      by_cases h : k₀ = k
      · subst h
        simp [List.cons_append, jsonGet_cons]
      · simp only [List.cons_append, jsonGet_cons, if_neg h, ih]

theorem jsonGet_filterNew (old : Obj) (k : String) (h : jsonGet old k = none) :
    ∀ new : Obj,
      jsonGet (new.filter (fun kv => decide (jsonGet old kv.1 = none))) k = jsonGet new k := by
  intro new
  induction new with
  | nil => rfl
  | cons kv rest ih =>
      obtain ⟨k₁, v₁⟩ := kv
      by_cases hk : k₁ = k
      · subst hk
        simp [List.filter_cons, h, jsonGet_cons]
      · cases hp : decide (jsonGet old k₁ = none) with
        | true => simp [List.filter_cons, hp, jsonGet_cons, hk, ih]
        | false => simp [List.filter_cons, hp, jsonGet_cons, hk, ih]

theorem jsonGet_spreadMerge (old new : Obj) (k : String) :
    jsonGet (spreadMerge old new) k =
      match jsonGet old k, jsonGet new k with
      | some _, some v => some v
      | some w, none => some w
      | none, o => o := by
  unfold spreadMerge
  rw [jsonGet_append, jsonGet_map_override]
  cases ho : jsonGet old k with
  | some w => cases hn : jsonGet new k <;> simp
  | none => simpa using jsonGet_filterNew old k ho new

theorem updateFirst_some (id : String) (body : Obj) :
    ∀ (data data' : List Obj), updateFirst id body data = some data' →
      ∃ pre item post, data = pre ++ item :: post
        ∧ (∀ o ∈ pre, matchesId id o = false)
        ∧ matchesId id item = true
        ∧ data' = pre ++ spreadMerge item body :: post := by
  intro data
  induction data with
  | nil => intro d' h; simp [updateFirst] at h
  | cons item rest ih =>
      intro d' h
      by_cases hm : matchesId id item = true
      · refine ⟨[], item, rest, rfl, by simp, hm, ?_⟩
        simp only [updateFirst, if_pos hm, Option.some_inj] at h
        simp [← h]
      · simp only [updateFirst, if_neg hm, Option.map_eq_some'] at h
        obtain ⟨tail, htail, rfl⟩ := h
        obtain ⟨pre, item₀, post, hdec, hpre, hmatch, htail'⟩ := ih tail htail
        refine ⟨item :: pre, item₀, post, by simp [hdec], ?_, hmatch, by simp [htail']⟩
        intro o ho
        rcases List.mem_cons.mp ho with rfl | ho
        · exact Bool.not_eq_true _ ▸ (by simpa using hm)
        · exact hpre o ho

theorem deleteFirst_some (id : String) :
    ∀ (data data' : List Obj), deleteFirst id data = some data' →
      ∃ pre item post, data = pre ++ item :: post
        ∧ (∀ o ∈ pre, matchesId id o = false)
        ∧ matchesId id item = true
        ∧ data' = pre ++ post := by
  intro data
  induction data with
  | nil => intro d' h; simp [deleteFirst] at h
  | cons item rest ih =>
      intro d' h
      by_cases hm : matchesId id item = true
      · refine ⟨[], item, rest, rfl, by simp, hm, ?_⟩
        simp only [deleteFirst, if_pos hm, Option.some_inj] at h
        simp [← h]
      · simp only [deleteFirst, if_neg hm, Option.map_eq_some'] at h
        obtain ⟨tail, htail, rfl⟩ := h
        obtain ⟨pre, item₀, post, hdec, hpre, hmatch, htail'⟩ := ih tail htail
        refine ⟨item :: pre, item₀, post, by simp [hdec], ?_, hmatch, by simp [htail']⟩
        intro o ho
        rcases List.mem_cons.mp ho with rfl | ho
        · simpa using hm
        · exact hpre o ho

theorem deleteFirst_none_iff (id : String) :
    ∀ data : List Obj, deleteFirst id data = none ↔ ∀ o ∈ data, matchesId id o = false := by
  intro data
  induction data with
  | nil => simp [deleteFirst]
  | cons item rest ih =>
      by_cases hm : matchesId id item = true
      · simp [deleteFirst, hm]
      · simp only [deleteFirst, if_neg hm, Option.map_eq_none', ih]
        constructor
        · intro h o ho
          rcases List.mem_cons.mp ho with rfl | ho
          · simpa using hm
          · exact h o ho
        · intro h o ho
          exact h o (List.mem_cons_of_mem _ ho)

/-! ## Claims C8, C9, C10 -/
/-- C8: for every existing item and every partial update body, the PUT
handler shallow-merges: every field of the body overwrites or adds that
field on the stored item, every pre-existing field not named in the body
is preserved, and all items before and after the addressed (first
matching) one are returned verbatim. -/
theorem C8_put_shallow_merge (data : List Obj) (id : String) (body : Obj)
    (data' : List Obj) (h : updateItemRoute id body data = (true, data')) :
    ∃ pre item post,
      data = pre ++ item :: post
      ∧ (∀ o ∈ pre, matchesId id o = false)
      ∧ matchesId id item = true
      ∧ data' = pre ++ spreadMerge item body :: post
      ∧ (∀ k v, jsonGet body k = some v → jsonGet (spreadMerge item body) k = some v)
      ∧ (∀ k, jsonGet body k = none → jsonGet (spreadMerge item body) k = jsonGet item k) := by
  have hsome : updateFirst id body data = some data' := by
    unfold updateItemRoute at h
    cases hu : updateFirst id body data with
    | none => rw [hu] at h; simp at h
    | some d =>
        rw [hu] at h
        simp only [Prod.mk.injEq] at h
        rw [h.2]
  obtain ⟨pre, item, post, hdec, hpre, hmatch, hd'⟩ := updateFirst_some id body data data' hsome
  refine ⟨pre, item, post, hdec, hpre, hmatch, hd', ?_, ?_⟩
  · intro k v hk
    rw [jsonGet_spreadMerge, hk]
    cases jsonGet item k <;> rfl
  · intro k hk
    rw [jsonGet_spreadMerge, hk]
    cases jsonGet item k <;> rfl

/-- Witness for C8 at a concrete store and body. -/
theorem C8_put_shallow_merge_witness :
    updateItemRoute "A" bodyFoo [objB, objA] = (true, [objB, spreadMerge objA bodyFoo])
    ∧ ∃ pre item post,
        [objB, objA] = pre ++ item :: post
        ∧ (∀ o ∈ pre, matchesId "A" o = false)
        ∧ matchesId "A" item = true
        ∧ [objB, spreadMerge objA bodyFoo] = pre ++ spreadMerge item bodyFoo :: post
        ∧ (∀ k v, jsonGet bodyFoo k = some v → jsonGet (spreadMerge item bodyFoo) k = some v)
        ∧ (∀ k, jsonGet bodyFoo k = none → jsonGet (spreadMerge item bodyFoo) k = jsonGet item k) :=
  ⟨by decide, C8_put_shallow_merge [objB, objA] "A" bodyFoo [objB, spreadMerge objA bodyFoo]
    (by decide)⟩

/-- C9: the DELETE handler is atomic and minimal: with no matching item it
reports failure (404) and returns the store untouched; with a match it
removes exactly the first matching element, keeping every other element
and their relative order, so the length drops by exactly one. -/
theorem C9_delete_atomic (id : String) (data : List Obj) :
    ((∀ o ∈ data, matchesId id o = false) → deleteItemRoute id data = (false, data))
    ∧ ((∃ o ∈ data, matchesId id o = true) →
        ∃ pre item post,
          data = pre ++ item :: post
          ∧ (∀ o ∈ pre, matchesId id o = false)
          ∧ matchesId id item = true
          ∧ deleteItemRoute id data = (true, pre ++ post)
          ∧ data.length = (pre ++ post).length + 1) := by
  constructor
  · intro hnone
    unfold deleteItemRoute
    rw [(deleteFirst_none_iff id data).mpr hnone]
  · intro hex
    cases hdel : deleteFirst id data with
    | none =>
        obtain ⟨o, ho, hmo⟩ := hex
        have := (deleteFirst_none_iff id data).mp hdel o ho
        rw [hmo] at this
        cases this
    | some d' =>
        obtain ⟨pre, item, post, hdec, hpre, hmatch, hd'⟩ := deleteFirst_some id data d' hdel
        refine ⟨pre, item, post, hdec, hpre, hmatch, ?_, ?_⟩
        · unfold deleteItemRoute
          rw [hdel, hd']
        · rw [hdec]
          simp [List.length_append, List.length_cons]
          omega

/-- Witness for C9 at a concrete store: the delete succeeds and removes
exactly the first matching item. -/
theorem C9_delete_atomic_witness :
    (∃ o ∈ [objB, objA], matchesId "A" o = true)
    ∧ (∃ pre item post,
        [objB, objA] = pre ++ item :: post
        ∧ (∀ o ∈ pre, matchesId "A" o = false)
        ∧ matchesId "A" item = true
        ∧ deleteItemRoute "A" [objB, objA] = (true, pre ++ post)
        ∧ ([objB, objA] : List Obj).length = (pre ++ post).length + 1) :=
  ⟨by decide, (C9_delete_atomic "A" [objB, objA]).2 (by decide)⟩

/-- C10: a missing, non-numeric or zero `items_per_page` parameter yields
the default effective page size 10, so the `Math.ceil(total/limit)`
computation never sees a zero divisor for such inputs. -/
theorem C10_items_per_page_default (ipp : ItemsPerPageInput)
    (h : ipp = .missing ∨ (∃ s, ipp = .nonNumeric s) ∨ ipp = .intVal 0) :
    effectiveLimit ipp = 10 ∧ effectiveLimit ipp ≠ 0 := by
  have h10 : effectiveLimit ipp = 10 := by
    rcases h with rfl | ⟨s, rfl⟩ | rfl <;> rfl
  refine ⟨h10, ?_⟩
  rw [h10]
  decide

/-! ## Claim C4 (pagination arithmetic) -/
/-- C4: `total_pages` is the ceiling of `count / limit` (0 on an empty
collection), the returned slice is the requested window clipped to the
collection bounds (an out-of-range start yields `[]`), and its length is
`min limit (count - start)` with truncated subtraction. -/
theorem C4_pagination {α : Type} (l : List α) (page limit : Nat)
    (hp : 1 ≤ page) (hl : 1 ≤ limit) :
    totalPagesOf l.length limit = l.length ⌈/⌉ limit
    ∧ (l.length = 0 → totalPagesOf l.length limit = 0)
    ∧ (paginate l page limit).length = min limit (l.length - (page - 1) * limit)
    ∧ (l.length ≤ (page - 1) * limit → paginate l page limit = [])
    ∧ (∀ j : Nat, j < limit → (paginate l page limit)[j]? = l[(page - 1) * limit + j]?) := by
  refine ⟨(Nat.ceilDiv_eq_add_pred_div l.length limit).symm, ?_, ?_, ?_, ?_⟩
  · intro h
    rw [h]
    unfold totalPagesOf
    exact Nat.div_eq_of_lt (by omega)
  · simp [paginate, List.length_take, List.length_drop]
  · intro h
    unfold paginate
    rw [List.drop_eq_nil_of_le h]
    simp
  · intro j hj
    unfold paginate
    rw [List.getElem?_take_of_lt hj, List.getElem?_drop]

/-- Witness for C4 on a three-element collection, page 2, page size 2. -/
theorem C4_pagination_witness :
    (1 : Nat) ≤ 2 ∧ (1 : Nat) ≤ 2
    ∧ (totalPagesOf ([10, 20, 30] : List Nat).length 2 = ([10, 20, 30] : List Nat).length ⌈/⌉ 2
      ∧ (([10, 20, 30] : List Nat).length = 0 → totalPagesOf ([10, 20, 30] : List Nat).length 2 = 0)
      ∧ (paginate ([10, 20, 30] : List Nat) 2 2).length
          = min 2 (([10, 20, 30] : List Nat).length - (2 - 1) * 2)
      ∧ (([10, 20, 30] : List Nat).length ≤ (2 - 1) * 2 → paginate ([10, 20, 30] : List Nat) 2 2 = [])
      ∧ (∀ j : Nat, j < 2 →
          (paginate ([10, 20, 30] : List Nat) 2 2)[j]? = ([10, 20, 30] : List Nat)[(2 - 1) * 2 + j]?)) :=
  ⟨by decide, by decide, C4_pagination [10, 20, 30] 2 2 (by decide) (by decide)⟩

/-! ## Claim C2 (language extraction) -/
theorem langSlot_eq_lookup (c : String) : langSlot c = specLangTable.lookup c := by
  simp only [langSlot, specLangTable, List.lookup]
  by_cases h1 : c = "en"
  · simp [h1]
  by_cases h2 : c = "ta"
  · simp [h1, h2]
  by_cases h3 : c = "hi"
  · simp [h1, h2, h3]
  by_cases h4 : c = "te"
  · simp [h1, h2, h3, h4]
  by_cases h5 : c = "kn"
  · simp [h1, h2, h3, h4, h5]
  by_cases h6 : c = "ml"
  · simp [h1, h2, h3, h4, h5, h6]
  have e1 : (c == "en") = false := beq_eq_false_iff_ne.mpr h1
  have e2 : (c == "ta") = false := beq_eq_false_iff_ne.mpr h2
  have e3 : (c == "hi") = false := beq_eq_false_iff_ne.mpr h3
  have e4 : (c == "te") = false := beq_eq_false_iff_ne.mpr h4
  have e5 : (c == "kn") = false := beq_eq_false_iff_ne.mpr h5
  have e6 : (c == "ml") = false := beq_eq_false_iff_ne.mpr h6
  simp [h1, h2, h3, h4, h5, h6, e1, e2, e3, e4, e5, e6]

/-- C2: the extractor agrees pointwise with the specification formula
(slot table `{en:0, ta:1, hi:2, te:3, kn:4, ml:5}` read positionally from
the newline-split packed text, empty slots dropped, survivors rejoined,
sentinel when none survives), and on the concrete examples the `ta`
request returns the Tamil segment while an unsupported code returns the
sentinel. -/
theorem C2_language_extractor (multiline : String) (langArray : List String) :
    extractMultilineText multiline langArray =
      (let segs := splitLines multiline
       let survivors := (langArray.map (fun c =>
         match specLangTable.lookup c with
         | some i => segs.getD i ""
         | none => "")).filter (fun t => t ≠ "")
       if survivors = [] then noMatchSentinel else joinLines survivors)
    ∧ extractMultilineText "Hello\nவணக்கம்\nनमस्ते" ["ta"] = "வணக்கம்"
    ∧ extractMultilineText "Hello\nவணக்கம்\nनमस्ते" ["fr"] = noMatchSentinel := by
  refine ⟨?_, by decide, by decide⟩
  simp only [extractMultilineText]
  have hmap :
      (langArray.map (fun lang =>
        match langSlot lang with
        | some i => (splitLines multiline).getD i ""
        | none => ""))
        = (langArray.map (fun c =>
        match specLangTable.lookup c with
        | some i => (splitLines multiline).getD i ""
        | none => "")) := by
    apply List.map_congr_left
    intro c _
    rw [langSlot_eq_lookup]
  rw [hmap]
  cases hL : (langArray.map (fun c =>
      match specLangTable.lookup c with
      | some i => (splitLines multiline).getD i ""
      | none => "")).filter (fun t => t ≠ "") with
  | nil => simp
  | cons a as => simp

/-! ## Claim C5 (geo parameter validation) -/
/-- C5: whenever one of `lat`, `lng`, `range` is a present, non-empty,
non-numeric string, both validation shapes used by the geo endpoints
answer with a client error (never a success value built from a sentinel
number), and the error message names a parameter of the request that is
indeed not a valid number. -/
theorem C5_geo_param_validation (lat lng range : GeoQueryInput)
    (h : lat.isNonNumericStr = true ∨ lng.isNonNumericStr = true
      ∨ range.isNonNumericStr = true) :
    (∃ msg, validateNeighborhoodsNearbyParams lat lng range = Except.error msg
        ∧ mentionsOffendingParam lat lng range msg)
    ∧ (∃ msg, validatePlacesNearbyParams lat lng range = Except.error msg
        ∧ mentionsOffendingParam lat lng range msg) := by
  have h1 : strHasSub requiredMsg "lat" = true := by decide
  have h2 : strHasSub requiredMsg "lng" = true := by decide
  have h3 : strHasSub invalidNumbersMsg "lat" = true := by decide
  have h4 : strHasSub invalidNumbersMsg "lng" = true := by decide
  have h5 : strHasSub invalidNumbersMsg "range" = true := by decide
  rcases lat with _ | _ | slat | qlat <;> rcases lng with _ | _ | slng | qlng <;>
    rcases range with _ | _ | srange | qrange <;>
    simp_all [GeoQueryInput.isNonNumericStr, GeoQueryInput.truthy, GeoQueryInput.parseFloatQ,
      validateNeighborhoodsNearbyParams, validatePlacesNearbyParams, mentionsOffendingParam]

/-- Witness for C5: valid coordinates with a non-numeric `range`. -/
theorem C5_geo_param_validation_witness :
    ((GeoQueryInput.numeric 17).isNonNumericStr = true
      ∨ (GeoQueryInput.numeric 78).isNonNumericStr = true
      ∨ (GeoQueryInput.nonNumeric "abc").isNonNumericStr = true)
    ∧ ((∃ msg, validateNeighborhoodsNearbyParams (.numeric 17) (.numeric 78) (.nonNumeric "abc")
          = Except.error msg
          ∧ mentionsOffendingParam (.numeric 17) (.numeric 78) (.nonNumeric "abc") msg)
      ∧ (∃ msg, validatePlacesNearbyParams (.numeric 17) (.numeric 78) (.nonNumeric "abc")
          = Except.error msg
          ∧ mentionsOffendingParam (.numeric 17) (.numeric 78) (.nonNumeric "abc") msg)) :=
  ⟨Or.inr (Or.inr rfl),
   C5_geo_param_validation (.numeric 17) (.numeric 78) (.nonNumeric "abc") (Or.inr (Or.inr rfl))⟩

/-- Witness for C10 at the concrete parameter string `"abc"`. -/
theorem C10_items_per_page_default_witness :
    ((ItemsPerPageInput.nonNumeric "abc") = .missing
      ∨ (∃ s, (ItemsPerPageInput.nonNumeric "abc") = .nonNumeric s)
      ∨ (ItemsPerPageInput.nonNumeric "abc") = .intVal 0)
    ∧ effectiveLimit (.nonNumeric "abc") = 10 ∧ effectiveLimit (.nonNumeric "abc") ≠ 0 :=
  ⟨Or.inr (Or.inl ⟨"abc", rfl⟩),
   C10_items_per_page_default (ItemsPerPageInput.nonNumeric "abc") (Or.inr (Or.inl ⟨"abc", rfl⟩))⟩

/-! ## Digits of a natural number (for the next-page fields) -/
theorem toDigitsCore_zero (b n : Nat) (acc : List Char) :
    Nat.toDigitsCore b 0 n acc = acc := by
  conv_lhs => rw [Nat.toDigitsCore]

theorem toDigitsCore_succ (b f n : Nat) (acc : List Char) :
    Nat.toDigitsCore b (f + 1) n acc =
      (if n / b = 0 then Nat.digitChar (n % b) :: acc
       else Nat.toDigitsCore b f (n / b) (Nat.digitChar (n % b) :: acc)) := by
  conv_lhs => rw [Nat.toDigitsCore]

theorem toDigitsCore_length_ge (b : Nat) :
    ∀ (f n : Nat) (acc : List Char), acc.length ≤ (Nat.toDigitsCore b f n acc).length := by
  intro f
  induction f with
  | zero =>
      intro n acc
      rw [toDigitsCore_zero]
  | succ f ih =>
      intro n acc
      rw [toDigitsCore_succ]
      split
      · exact Nat.le_succ _
      · exact le_trans (Nat.le_succ _) (ih (n / b) (Nat.digitChar (n % b) :: acc))

theorem nat_repr_ne_empty (n : Nat) : Nat.repr n ≠ "" := by
  intro h
  have h1 : Nat.toDigitsCore 10 (n + 1) n [] = [] := by
    have h2 := congrArg String.toList h
    simpa [Nat.repr, Nat.toDigits] using h2
  have h3 : (1 : Nat) ≤ (Nat.toDigitsCore 10 (n + 1) n []).length := by
    rw [toDigitsCore_succ]
    split
    · simp
    · exact le_trans (by simp) (toDigitsCore_length_ge 10 n (n / 10) [Nat.digitChar (n % 10)])
  rw [h1] at h3
  simp at h3

theorem str_eq_empty_iff (s : String) : s = "" ↔ s.toList = [] := by
  constructor
  · intro h
    rw [h]
    rfl
  · intro h
    have hs : s = String.mk s.toList := rfl
    rw [h] at hs
    exact hs

theorem toList_empty : ("" : String).toList = [] := rfl

theorem strHasSub_intro (S pre needle post : String)
    (h : S.toList = pre.toList ++ needle.toList ++ post.toList) :
    strHasSub S needle = true := by
  unfold strHasSub
  rw [h]
  exact listSub_of_parts needle.toList pre.toList post.toList

/-! ## Claim C7 (next-page indicator) -/
/-- C7 (amended): both next-page fields are non-empty exactly when
`page < total_pages`; the link then carries the page number `page + 1`
and embeds the values of `searchtext`, `sub-category-id`, `languages` and
`items_per_page` verbatim whenever they were provided; but an absent
`sub-category-id` or `languages` parameter is serialised as the literal
string `"undefined"` instead of being omitted, so the reconstructed query
carries filters the original request did not have. -/
theorem C7_next_page_indicator (searchtext : String) (subCategoryId languages : Option String)
    (page limit total_pages : Nat) :
    (nextPageField page total_pages ≠ "" ↔ page < total_pages)
    ∧ (nextPageApiField searchtext subCategoryId languages page limit total_pages ≠ "" ↔ page < total_pages)
    ∧ (page < total_pages →
        nextPageField page total_pages = Nat.repr (page + 1)
        ∧ strHasSub (nextPageApiField searchtext subCategoryId languages page limit total_pages) ("searchtext=" ++ searchtext ++ "&sub-category-id=") = true
        ∧ strHasSub (nextPageApiField searchtext subCategoryId languages page limit total_pages)
            ("&sub-category-id=" ++ undefinedToString subCategoryId ++ "&languages=") = true
        ∧ strHasSub (nextPageApiField searchtext subCategoryId languages page limit total_pages)
            ("&languages=" ++ undefinedToString languages ++ "&current_page=") = true
        ∧ strHasSub (nextPageApiField searchtext subCategoryId languages page limit total_pages)
            ("&current_page=" ++ Nat.repr (page + 1) ++ "&items_per_page=") = true
        ∧ strHasSub (nextPageApiField searchtext subCategoryId languages page limit total_pages) ("&items_per_page=" ++ Nat.repr limit) = true
        ∧ (∀ c, subCategoryId = some c →
            strHasSub (nextPageApiField searchtext subCategoryId languages page limit total_pages) ("&sub-category-id=" ++ c ++ "&languages=") = true)
        ∧ (∀ ls, languages = some ls →
            strHasSub (nextPageApiField searchtext subCategoryId languages page limit total_pages) ("&languages=" ++ ls ++ "&current_page=") = true)
        ∧ (subCategoryId = none →
            strHasSub (nextPageApiField searchtext subCategoryId languages page limit total_pages) "&sub-category-id=undefined&languages=" = true)
        ∧ (languages = none →
            strHasSub (nextPageApiField searchtext subCategoryId languages page limit total_pages) "&languages=undefined&current_page=" = true)) := by
  have hsplit1 : ("/api/v1/items?searchtext=" : String).toList
      = ("/api/v1/items?" : String).toList ++ ("searchtext=" : String).toList := by decide
  refine ⟨?_, ?_, ?_⟩
  · unfold nextPageField
    split
    · constructor
      · intro _
        assumption
      · intro _
        exact nat_repr_ne_empty _
    · constructor
      · intro hne
        exact absurd rfl hne
      · intro hlt
        exact absurd hlt (by assumption)
  · unfold nextPageApiField
    split
    · constructor
      · intro _
        assumption
      · intro _
        intro h0
        have h2 := congrArg String.toList h0
        simp only [toList_append, List.append_assoc, toList_empty] at h2
        rw [List.append_eq_nil] at h2
        exact absurd h2.1 (by decide)
    · constructor
      · intro hne
        exact absurd rfl hne
      · intro hlt
        exact absurd hlt (by assumption)
  · intro hlt
    have hapi : nextPageApiField searchtext subCategoryId languages page limit total_pages
        = "/api/v1/items?searchtext=" ++ searchtext
          ++ "&sub-category-id=" ++ undefinedToString subCategoryId
          ++ "&languages=" ++ undefinedToString languages
          ++ "&current_page=" ++ Nat.repr (page + 1)
          ++ "&items_per_page=" ++ Nat.repr limit := by
      unfold nextPageApiField
      rw [if_pos hlt]
    have hsub2 : strHasSub (nextPageApiField searchtext subCategoryId languages page limit total_pages)
        ("&sub-category-id=" ++ undefinedToString subCategoryId ++ "&languages=") = true := by
      rw [hapi]
      apply strHasSub_intro _ ("/api/v1/items?searchtext=" ++ searchtext)
        ("&sub-category-id=" ++ undefinedToString subCategoryId ++ "&languages=")
        (undefinedToString languages ++ "&current_page=" ++ Nat.repr (page + 1)
          ++ "&items_per_page=" ++ Nat.repr limit)
      simp only [toList_append, List.append_assoc]
    have hsub3 : strHasSub (nextPageApiField searchtext subCategoryId languages page limit total_pages)
        ("&languages=" ++ undefinedToString languages ++ "&current_page=") = true := by
      rw [hapi]
      apply strHasSub_intro _
        ("/api/v1/items?searchtext=" ++ searchtext ++ "&sub-category-id="
          ++ undefinedToString subCategoryId)
        ("&languages=" ++ undefinedToString languages ++ "&current_page=")
        (Nat.repr (page + 1) ++ "&items_per_page=" ++ Nat.repr limit)
      simp only [toList_append, List.append_assoc]
    refine ⟨?_, ?_, hsub2, hsub3, ?_, ?_, ?_, ?_, ?_, ?_⟩
    · unfold nextPageField
      rw [if_pos hlt]
    · rw [hapi]
      apply strHasSub_intro _ ("/api/v1/items?" : String)
        ("searchtext=" ++ searchtext ++ "&sub-category-id=")
        (undefinedToString subCategoryId ++ "&languages=" ++ undefinedToString languages
          ++ "&current_page=" ++ Nat.repr (page + 1) ++ "&items_per_page=" ++ Nat.repr limit)
      simp only [toList_append, List.append_assoc, hsplit1]
    · rw [hapi]
      apply strHasSub_intro _
        ("/api/v1/items?searchtext=" ++ searchtext ++ "&sub-category-id="
          ++ undefinedToString subCategoryId ++ "&languages=" ++ undefinedToString languages)
        ("&current_page=" ++ Nat.repr (page + 1) ++ "&items_per_page=")
        (Nat.repr limit)
      simp only [toList_append, List.append_assoc]
    · rw [hapi]
      apply strHasSub_intro _
        ("/api/v1/items?searchtext=" ++ searchtext ++ "&sub-category-id="
          ++ undefinedToString subCategoryId ++ "&languages=" ++ undefinedToString languages
          ++ "&current_page=" ++ Nat.repr (page + 1))
        ("&items_per_page=" ++ Nat.repr limit)
        ("" : String)
      simp only [toList_append, List.append_assoc, toList_empty, List.append_nil]
    · intro c hc
      subst hc
      simpa [undefinedToString] using hsub2
    · intro ls hls
      subst hls
      simpa [undefinedToString] using hsub3
    · intro hc
      subst hc
      have hlit : ("&sub-category-id=" ++ undefinedToString (none : Option String)
            ++ "&languages=" : String)
          = "&sub-category-id=undefined&languages=" := by decide
      rw [hlit] at hsub2
      exact hsub2
    · intro hls
      subst hls
      have hlit : ("&languages=" ++ undefinedToString (none : Option String)
            ++ "&current_page=" : String)
          = "&languages=undefined&current_page=" := by decide
      rw [hlit] at hsub3
      exact hsub3

/-- Witness for C7 at concrete parameters with all filters present. -/
theorem C7_next_page_indicator_witness :
    (1 < 2)
    ∧ (nextPageField 1 2 = Nat.repr (1 + 1)
      ∧ strHasSub (nextPageApiField "x" (some "A") (some "ta") 1 10 2) ("searchtext=" ++ "x" ++ "&sub-category-id=") = true
      ∧ strHasSub (nextPageApiField "x" (some "A") (some "ta") 1 10 2) ("&sub-category-id=" ++ undefinedToString (some "A") ++ "&languages=") = true
      ∧ strHasSub (nextPageApiField "x" (some "A") (some "ta") 1 10 2) ("&languages=" ++ undefinedToString (some "ta") ++ "&current_page=") = true
      ∧ strHasSub (nextPageApiField "x" (some "A") (some "ta") 1 10 2) ("&current_page=" ++ Nat.repr (1 + 1) ++ "&items_per_page=") = true
      ∧ strHasSub (nextPageApiField "x" (some "A") (some "ta") 1 10 2) ("&items_per_page=" ++ Nat.repr 10) = true
      ∧ (∀ c, (some "A" : Option String) = some c →
          strHasSub (nextPageApiField "x" (some "A") (some "ta") 1 10 2) ("&sub-category-id=" ++ c ++ "&languages=") = true)
      ∧ (∀ ls, (some "ta" : Option String) = some ls →
          strHasSub (nextPageApiField "x" (some "A") (some "ta") 1 10 2) ("&languages=" ++ ls ++ "&current_page=") = true)
      ∧ ((some "A" : Option String) = none →
          strHasSub (nextPageApiField "x" (some "A") (some "ta") 1 10 2) "&sub-category-id=undefined&languages=" = true)
      ∧ ((some "ta" : Option String) = none →
          strHasSub (nextPageApiField "x" (some "A") (some "ta") 1 10 2) "&languages=undefined&current_page=" = true)) :=
  ⟨by decide,
   (C7_next_page_indicator "x" (some "A") (some "ta") 1 10 2).2.2 (by decide)⟩

/-- Counterexample to C7 as stated: for a request with no `sub-category-id`
and no `languages` filter, the reconstructed query string carries
`sub-category-id=undefined` and `languages=undefined`, and applying those
filters changes the result set (11 items become 0), so the link does not
preserve the filter parameters of the original request. -/
theorem C7_next_page_counterexample :
    strHasSub (nextPageApiField "" none none 1 10 2) "sub-category-id=undefined" = true
    ∧ strHasSub (nextPageApiField "" none none 1 10 2) "languages=undefined" = true
    ∧ totalPagesOf (List.replicate 11 itemA).length 10 = 2
    ∧ filterItems (List.replicate 11 itemA) "" (some "undefined") (some "undefined") = []
    ∧ filterItems (List.replicate 11 itemA) "" none none = List.replicate 11 itemA := by
  decide

end GpsApi
